import Mathlib

/-!
Verification of the audit/training pipeline (audit_tools.py, train.py,
data_utils.py): a shallow embedding of the dataset model, the fairness
audit helpers, the scan adapter, the presence-check audit, the SHA-256
integrity manifest and the orchestrator entry point, with theorems about
the behaviours the design document ascribes to them.
-/

/-- A tabular dataset: named columns in declared order, each a sequence of
scalar values (rationals embed the numeric values used by the pipeline,
including the integer class labels of the `target` column). -/
structure Dataset where
  cols : List (String × List ℚ)
deriving DecidableEq

/-- The non-label column names in declared order
(`[c for c in df.columns if c != "target"]`). -/
def featureColNames (d : Dataset) : List String :=
  (d.cols.map Prod.fst).filter (fun c => c != "target")

/-- Column access `df[name]`: the first column carrying the name. -/
def getCol (d : Dataset) (name : String) : List ℚ :=
  match d.cols.find? (fun c => c.1 == name) with
  | some c => c.2
  | none => []

/-- Row count `df.shape[0]` (all columns have equal length by the dataset
invariant; the first column's length realises it). -/
def nrows (d : Dataset) : Nat :=
  match d.cols with
  | [] => 0
  | c :: _ => c.2.length

/-- `pd.unique`: the distinct values of a sequence in order of first
occurrence. -/
def pdUnique {α : Type} [DecidableEq α] (xs : List α) : List α :=
  xs.foldl (fun acc x => if x ∈ acc then acc else acc ++ [x]) []

/-- `Series.median()`: sort ascending; odd count takes the middle element,
even count averages the two middle elements. -/
def median (xs : List ℚ) : ℚ :=
  let s := List.insertionSort (· ≤ ·) xs
  let n := s.length
  if n % 2 = 1 then s.getD (n / 2) 0
  else (s.getD (n / 2 - 1) 0 + s.getD (n / 2) 0) / 2

/-- Lines 65-67 of audit_tools.py: the synthetic sensitive attribute.
`(df[col] > df[col].median()).map {True: "high_col", False: "low_col"}`. -/
def deriveSensitive (col : List ℚ) (name : String) : List String :=
  col.map (fun v => if median col < v then "high_" ++ name else "low_" ++ name)

/-- The sensitive series run_fairlearn builds: derived from the first
non-label column in declared order (line 64: `feature_cols[0]`). -/
def sensitiveOf (d : Dataset) : List String :=
  match featureColNames d with
  | [] => []
  | c :: _ => deriveSensitive (getCol d c) c

/-- Lines 60-61 of audit_tools.py: `(series == pos_label).astype(int)`. -/
def binarizeCode (ys : List ℚ) (pos : ℚ) : List Nat :=
  ys.map (fun y => if y = pos then 1 else 0)

/-- Lines 59-61 of audit_tools.py: `pos_label = pd.unique(y_true)[0]` (an
IndexError on an empty series) followed by binarization of both series.
No length comparison is performed anywhere in this step. -/
def binarizeStep (yTrue yPred : List ℚ) : Except String (List Nat × List Nat) :=
  match (pdUnique yTrue).head? with
  | none => Except.error "index 0 is out of bounds for axis 0 with size 0"
  | some pos => Except.ok (binarizeCode yTrue pos, binarizeCode yPred pos)

/-- The rows of the feature matrix `df[feature_cols].to_numpy()`. -/
def rowsOf (d : Dataset) (names : List String) : List (List ℚ) :=
  (List.range (nrows d)).map (fun i => names.map (fun nm => (getCol d nm).getD i 0))

/-- A loaded predictor: one label per input row. -/
def PredictModel : Type := List (List ℚ) → List ℚ

/-- The external fairlearn library surface run_fairlearn calls into
(MetricFrame.overall, MetricFrame.by_group and the two disparity
functions), kept abstract: its internals are not part of this repository. -/
structure FairlearnLib where
  overallMetrics : List Nat → List Nat → List String → List (String × ℚ)
  byGroup : List Nat → List Nat → List String → List (String × List (String × ℚ))
  dpd : List Nat → List Nat → List String → ℚ
  eod : List Nat → List Nat → List String → ℚ

/-- The fairness report of lines 83-97 of audit_tools.py. -/
structure FairnessReport where
  sensitive_feature : String
  overall : List (String × ℚ)
  by_group : List (String × List (String × ℚ))
  demographic_parity_difference : ℚ
  equalized_odds_difference : ℚ

/-- run_fairlearn (audit_tools.py lines 37-101): import guard, feature-column
check, prediction, binarization against the first observed true label,
median-split sensitive attribute from the first feature column, metric
calls into the external library, and the report record whose
sensitive_feature field is the fixed literal of line 84. -/
def run_fairlearn (available : Bool) (lib : FairlearnLib) (d : Dataset)
    (model : PredictModel) : Except String FairnessReport :=
  if available = false then Except.error "fairlearn is not installed"
  else
    match featureColNames d with
    | [] => Except.error "Dataset is missing feature columns."
    | c :: rest =>
      match binarizeStep (getCol d "target") (model (rowsOf d (c :: rest))) with
      | Except.error e => Except.error e
      | Except.ok (yTrueBin, yPredBin) =>
        Except.ok
          { sensitive_feature := "sepal_length_high_vs_low"
            overall := lib.overallMetrics yTrueBin yPredBin (deriveSensitive (getCol d c) c)
            by_group := lib.byGroup yTrueBin yPredBin (deriveSensitive (getCol d c) c)
            demographic_parity_difference :=
              lib.dpd yTrueBin yPredBin (deriveSensitive (getCol d c) c)
            equalized_odds_difference :=
              lib.eod yTrueBin yPredBin (deriveSensitive (getCol d c) c) }

/-- A JSON value, as assembled by the audits before serialization. -/
inductive JsonVal where
  | jstr (s : String) : JsonVal
  | jnum (q : ℚ) : JsonVal
  | jarr (l : List JsonVal) : JsonVal
  | jobj (l : List (String × JsonVal)) : JsonVal

/-- The keys of a JSON object, in order. -/
def jsonKeys : JsonVal → List String
  | JsonVal.jobj l => l.map Prod.fst
  | _ => []

/-- What the external giskard scan call does on a given run: returns its
native serialization, or raises internally. -/
inductive ScanOutcome where
  | succeeds (json : String) : ScanOutcome
  | raises (msg : String) : ScanOutcome
deriving DecidableEq

/-- Line 130 of audit_tools.py: the degraded scan report payload
`json.dumps` serializes when the scan raised. -/
def degradedPayload (msg : String) : JsonVal :=
  JsonVal.jobj [("warning", JsonVal.jstr "giskard scan failed"),
                ("error", JsonVal.jstr msg)]

/-- The content run_giskard writes to the report path. -/
inductive WrittenScan where
  | native (raw : String) : WrittenScan
  | degraded (payload : JsonVal) : WrittenScan

/-- run_giskard (audit_tools.py lines 104-138): import guard (a RuntimeError
that propagates), feature-column check, then the scan call wrapped in
try/except — an exception inside the scan is absorbed and replaced by the
degraded payload, and the function returns the output path normally.
The result pairs the path written with the content written there. -/
def run_giskard (available : Bool) (d : Dataset) (outcome : ScanOutcome)
    (output : String) : Except String (String × WrittenScan) :=
  if available = false then Except.error "giskard is not installed"
  else if (featureColNames d).isEmpty then
    Except.error "Dataset is missing feature columns."
  else
    match outcome with
    | ScanOutcome.succeeds j => Except.ok (output, WrittenScan.native j)
    | ScanOutcome.raises msg => Except.ok (output, WrittenScan.degraded (degradedPayload msg))

/-- run_credo (audit_tools.py lines 141-156): import guard, then the
lightweight metadata record of lines 149-153 keyed `credoai_version`,
`rows`, `features`. -/
def run_credo (available : Bool) (version : String) (d : Dataset) :
    Except String JsonVal :=
  if available = false then Except.error "credoai is not installed"
  else
    Except.ok (JsonVal.jobj
      [("credoai_version", JsonVal.jstr version),
       ("rows", JsonVal.jnum (nrows d : ℚ)),
       ("features", JsonVal.jarr ((featureColNames d).map JsonVal.jstr))])

/-- An observable action of the orchestrator entry point. -/
inductive Event where
  | loadData (path : String) : Event
  | loadMod (path : String) : Event
  | fileWrite (path : String) : Event
  | stdout (msg : String) : Event
  | stderr (msg : String) : Event
deriving DecidableEq

def isStderr : Event → Bool
  | Event.stderr _ => true
  | _ => false

def isLoadData : Event → Bool
  | Event.loadData _ => true
  | _ => false

def isLoadMod : Event → Bool
  | Event.loadMod _ => true
  | _ => false

def isFileWrite : Event → Bool
  | Event.fileWrite _ => true
  | _ => false

/-- The parsed command-line arguments of audit_tools.py (lines 159-169). -/
structure Args where
  runFairlearn : Bool
  runGiskard : Bool
  runCredo : Bool
  datasetPath : String
  modelPath : String
  fairlearnReport : String
  giskardReport : String
  credoReport : String

/-- The state of a file as a loader sees it. -/
inductive FileLoad (α : Type) where
  | missing : FileLoad α
  | malformed (msg : String) : FileLoad α
  | loaded (v : α) : FileLoad α

/-- The environment an invocation runs in: the file system contents and the
availability and behaviour of the three optional external libraries. -/
structure World where
  dataset : String → FileLoad Dataset
  model : String → FileLoad PredictModel
  fairlearnAvailable : Bool
  giskardAvailable : Bool
  credoAvailable : Bool
  credoVersion : String
  fairlearnLib : FairlearnLib
  scanOutcome : ScanOutcome

/-- load_dataset (audit_tools.py lines 23-28): FileNotFoundError when the
path does not exist; a read failure on a malformed file propagates. -/
def load_dataset (w : World) (p : String) : Except String Dataset :=
  match w.dataset p with
  | FileLoad.missing => Except.error ("Dataset not found at " ++ p)
  | FileLoad.malformed m => Except.error m
  | FileLoad.loaded d => Except.ok d

/-- load_model (audit_tools.py lines 31-34). -/
def load_model (w : World) (p : String) : Except String PredictModel :=
  match w.model p with
  | FileLoad.missing => Except.error ("Model artifact not found at " ++ p)
  | FileLoad.malformed m => Except.error m
  | FileLoad.loaded m => Except.ok m

/-- The events of the fairlearn branch of main (lines 181-183): the report
write inside run_fairlearn and main's progress line. -/
def fairlearnEvents (w : World) (d : Dataset) (mdl : PredictModel)
    (rp : String) : Except String (List Event) :=
  match run_fairlearn w.fairlearnAvailable w.fairlearnLib d mdl with
  | Except.error e => Except.error e
  | Except.ok _ => Except.ok [Event.fileWrite rp, Event.stdout ("Fairlearn report written to " ++ rp)]

/-- The events of the giskard branch of main (lines 185-187). -/
def giskardEvents (w : World) (d : Dataset) (rp : String) :
    Except String (List Event) :=
  match run_giskard w.giskardAvailable d w.scanOutcome rp with
  | Except.error e => Except.error e
  | Except.ok _ => Except.ok [Event.fileWrite rp, Event.stdout ("Giskard report written to " ++ rp)]

/-- The events of the credo branch of main (lines 189-191). -/
def credoEvents (w : World) (d : Dataset) (rp : String) :
    Except String (List Event) :=
  match run_credo w.credoAvailable w.credoVersion d with
  | Except.error e => Except.error e
  | Except.ok _ => Except.ok [Event.fileWrite rp, Event.stdout ("Credo AI metadata written to " ++ rp)]

/-- main (audit_tools.py lines 172-191): the no-audit early return, the two
loads, then the three independently selected audits in fixed order. The
result is the event trace together with the exception that escaped, if
any. -/
def mainRun (args : Args) (w : World) : List Event × Option String :=
  if (args.runFairlearn || args.runGiskard || args.runCredo) = false then
    ([Event.stdout "No audits selected; exiting cleanly."], none)
  else
    match load_dataset w args.datasetPath with
    | Except.error e => ([Event.loadData args.datasetPath], some e)
    | Except.ok df =>
      match load_model w args.modelPath with
      | Except.error e =>
        ([Event.loadData args.datasetPath, Event.loadMod args.modelPath], some e)
      | Except.ok mdl =>
        match (if args.runFairlearn then fairlearnEvents w df mdl args.fairlearnReport else Except.ok []) with
        | Except.error e =>
          ([Event.loadData args.datasetPath, Event.loadMod args.modelPath], some e)
        | Except.ok e1 =>
          match (if args.runGiskard then giskardEvents w df args.giskardReport else Except.ok []) with
          | Except.error e =>
            ([Event.loadData args.datasetPath, Event.loadMod args.modelPath] ++ e1, some e)
          | Except.ok e2 =>
            match (if args.runCredo then credoEvents w df args.credoReport else Except.ok []) with
            | Except.error e =>
              ([Event.loadData args.datasetPath, Event.loadMod args.modelPath] ++ e1 ++ e2, some e)
            | Except.ok e3 =>
              ([Event.loadData args.datasetPath, Event.loadMod args.modelPath] ++ e1 ++ e2 ++ e3, none)

/-- The __main__ guard (audit_tools.py lines 194-199): main's exception, if
one escapes, is written as one line to stderr and the process exits 1;
otherwise the process exits 0. -/
def topLevel (args : Args) (w : World) : List Event × Nat :=
  match mainRun args w with
  | (evs, none) => (evs, 0)
  | (evs, some e) => (evs ++ [Event.stderr ("[audit_tools] Failed: " ++ e ++ "\n")], 1)

/-- The design document's error taxonomy (section 7). -/
inductive AuditError where
  | notFound (msg : String) : AuditError
  | missingCapability (msg : String) : AuditError
  | invalidInput (msg : String) : AuditError
  | insufficientGroups : AuditError
deriving DecidableEq

/-- The fraction of elements of a list satisfying a predicate. -/
def ratioCount {α : Type} (p : α → Bool) (l : List α) : ℚ :=
  (l.countP p : ℚ) / (l.length : ℚ)

/-- The maximum of a list of rationals (0 for the empty list). -/
def maxQ (l : List ℚ) : ℚ := l.foldl max (l.headD 0)

/-- The minimum of a list of rationals (0 for the empty list). -/
def minQ (l : List ℚ) : ℚ := l.foldl min (l.headD 0)

/-- A group metric frame: the per-group metric table plus the overall row
(design document section 3, GroupMetricFrame). -/
structure GroupMetricFrame where
  overall : List (String × ℚ)
  byGroup : List (String × List (String × ℚ))

/-- Accuracy of a list of (true, predicted) pairs: the fraction with
predicted equal to true. -/
def accuracyOf (ps : List (Bool × Bool)) : ℚ :=
  ratioCount (fun p => p.1 == p.2) ps

/-- Selection rate of a list of (true, predicted) pairs: the fraction
predicted positive. -/
def selectionRateOf (ps : List (Bool × Bool)) : ℚ :=
  ratioCount (fun p => p.2) ps

/-- True-positive rate: among pairs whose true label is positive, the
fraction predicted positive. -/
def tprOf (ps : List (Bool × Bool)) : ℚ :=
  ratioCount (fun p => p.2) (ps.filter (fun p => p.1))

/-- False-positive rate: among pairs whose true label is negative, the
fraction predicted positive. -/
def fprOf (ps : List (Bool × Bool)) : ℚ :=
  ratioCount (fun p => p.2) (ps.filter (fun p => !p.1))

/-- Modelled from the spec: the FairnessMetricComputer of design document
section 4.4, whose implementation in the repository is delegated to the
external fairlearn library and is therefore not under src/. Partitions the
aligned binarized sequences by sensitive-group value; computes accuracy and
selection_rate per group and overall; computes
demographic_parity_difference as max minus min of the group selection
rates and equalized_odds_difference as the larger of the true-positive-rate
gap and the false-positive-rate gap; fails with InsufficientGroupsError
when fewer than two distinct groups occur. -/
def computeFairness (yTrue yPred : List Bool) (sensitive : List String) :
    Except AuditError (GroupMetricFrame × ℚ × ℚ) :=
  let groups := pdUnique sensitive
  if groups.length < 2 then Except.error AuditError.insufficientGroups
  else
    let rows := (yTrue.zip yPred).zip sensitive
    let part := fun g => (rows.filter (fun r => r.2 == g)).map Prod.fst
    let metricsOf := fun ps =>
      [("accuracy", accuracyOf ps), ("selection_rate", selectionRateOf ps)]
    let frame : GroupMetricFrame :=
      { overall := metricsOf (yTrue.zip yPred)
        byGroup := groups.map (fun g => (g, metricsOf (part g))) }
    let sels := groups.map (fun g => selectionRateOf (part g))
    let dpd := maxQ sels - minQ sels
    let tprs := groups.map (fun g => tprOf (part g))
    let fprs := groups.map (fun g => fprOf (part g))
    let eod := max (maxQ tprs - minQ tprs) (maxQ fprs - minQ fprs)
    Except.ok (frame, dpd, eod)

/-- Splits a list into consecutive chunks of n elements (the last one
shorter); the successive reads of a file at a fixed buffer size. -/
def chunksOf {α : Type} (n : Nat) (l : List α) : List (List α) :=
  if h1 : l.isEmpty then []
  else if h2 : n = 0 then [l]
  else l.take n :: chunksOf n (l.drop n)
termination_by l.length
decreasing_by
  have hl : l.length ≠ 0 := by
    cases l with
    | nil => simp at h1
    | cons x xs => simp
  simp only [List.length_drop]
  omega

/-- Truncation to a 32-bit word. -/
def w32 (x : Nat) : Nat := x % 4294967296

/-- 32-bit right rotation. -/
def rotr (n x : Nat) : Nat := w32 ((x >>> n) ||| (x <<< (32 - n)))

def bsig0 (x : Nat) : Nat := (rotr 2 x) ^^^ (rotr 13 x) ^^^ (rotr 22 x)

def bsig1 (x : Nat) : Nat := (rotr 6 x) ^^^ (rotr 11 x) ^^^ (rotr 25 x)

def ssig0 (x : Nat) : Nat := (rotr 7 x) ^^^ (rotr 18 x) ^^^ (x >>> 3)

def ssig1 (x : Nat) : Nat := (rotr 17 x) ^^^ (rotr 19 x) ^^^ (x >>> 10)

def chFn (x y z : Nat) : Nat := (x &&& y) ^^^ ((x ^^^ 4294967295) &&& z)

def majFn (x y z : Nat) : Nat := (x &&& y) ^^^ (x &&& z) ^^^ (y &&& z)

/-- The k bytes of n, big-endian. -/
def beBytes : Nat → Nat → List Nat
  | 0, _ => []
  | k + 1, n => beBytes k (n / 256) ++ [n % 256]

/-- A big-endian word from its bytes. -/
def wordOfBytes (bs : List Nat) : Nat :=
  bs.foldl (fun acc b => acc * 256 + b) 0

/-- SHA-256 padding: append 0x80, zero bytes up to 56 mod 64, then the
bit length as 8 big-endian bytes. -/
def shaPad (msg : List Nat) : List Nat :=
  let L := msg.length
  let z := (119 - L % 64) % 64
  msg ++ [128] ++ List.replicate z 0 ++ beBytes 8 (8 * L)

/-- The SHA-256 round constants (decimal). -/
def shaK : List Nat :=
  [1116352408, 1899447441, 3049323471, 3921009573, 961987163,
   1508970993, 2453635748, 2870763221, 3624381080, 310598401,
   607225278, 1426881987, 1925078388, 2162078206, 2614888103,
   3248222580, 3835390401, 4022224774, 264347078, 604807628,
   770255983, 1249150122, 1555081692, 1996064986, 2554220882,
   2821834349, 2952996808, 3210313671, 3336571891, 3584528711,
   113926993, 338241895, 666307205, 773529912, 1294757372,
   1396182291, 1695183700, 1986661051, 2177026350, 2456956037,
   2730485921, 2820302411, 3259730800, 3345764771, 3516065817,
   3600352804, 4094571909, 275423344, 430227734, 506948616,
   659060556, 883997877, 958139571, 1322822218, 1537002063,
   1747873779, 1955562222, 2024104815, 2227730452, 2361852424,
   2428436474, 2756734187, 3204031479, 3329325298]

/-- The eight working words of the SHA-256 state. -/
structure Sha8 where
  a : Nat
  b : Nat
  c : Nat
  d : Nat
  e : Nat
  f : Nat
  g : Nat
  h : Nat
deriving DecidableEq

/-- The SHA-256 initial state (decimal). -/
def shaInit : Sha8 :=
  ⟨1779033703, 3144134277, 1013904242, 2773480762,
   1359893119, 2600822924, 528734635, 1541459225⟩

/-- Extends the 16 message-schedule words to 64. -/
def extendW (w : List Nat) : Nat → List Nat
  | 0 => w
  | k + 1 =>
    let n := w.length
    extendW (w ++ [w32 (ssig1 (w.getD (n - 2) 0) + w.getD (n - 7) 0 +
                        ssig0 (w.getD (n - 15) 0) + w.getD (n - 16) 0)]) k

/-- One SHA-256 compression round. -/
def compressStep (st : Sha8) (kw : Nat × Nat) : Sha8 :=
  let t1 := w32 (st.h + bsig1 st.e + chFn st.e st.f st.g + kw.1 + kw.2)
  let t2 := w32 (bsig0 st.a + majFn st.a st.b st.c)
  ⟨w32 (t1 + t2), st.a, st.b, st.c, w32 (st.d + t1), st.e, st.f, st.g⟩

/-- Processes one 64-byte block. -/
def processBlock (st : Sha8) (block : List Nat) : Sha8 :=
  let ws := extendW ((chunksOf 4 block).map wordOfBytes) 48
  let t := (ws.zip shaK).foldl compressStep st
  ⟨w32 (st.a + t.a), w32 (st.b + t.b), w32 (st.c + t.c), w32 (st.d + t.d),
   w32 (st.e + t.e), w32 (st.f + t.f), w32 (st.g + t.g), w32 (st.h + t.h)⟩

/-- The SHA-256 state after hashing a byte sequence. -/
def sha256Words (bytes : List Nat) : Sha8 :=
  (chunksOf 64 (shaPad bytes)).foldl processBlock shaInit

/-- The 32 digest bytes of a byte sequence. -/
def sha256Bytes (bytes : List Nat) : List Nat :=
  let r := sha256Words bytes
  beBytes 4 r.a ++ beBytes 4 r.b ++ beBytes 4 r.c ++ beBytes 4 r.d ++
  beBytes 4 r.e ++ beBytes 4 r.f ++ beBytes 4 r.g ++ beBytes 4 r.h

/-- The lower-case hex character of a value below 16. -/
def hexChar (n : Nat) : Char :=
  if n < 10 then Char.ofNat (48 + n) else Char.ofNat (87 + n)

/-- The two lower-case hex characters of a byte. -/
def byteHex (b : Nat) : List Char :=
  [hexChar (b / 16 % 16), hexChar (b % 16)]

/-- The lower-case hex rendering of a byte sequence. -/
def hexOfBytes (bs : List Nat) : List Char :=
  (bs.map byteHex).flatten

/-- `hashlib.sha256(bytes).hexdigest()`. -/
def sha256hex (bytes : List Nat) : String :=
  String.mk (hexOfBytes (sha256Bytes bytes))

/-- The read buffer size of file_sha256 (train.py line 94). -/
def BUF_SIZE : Nat := 1024 * 1024

/-- file_sha256 (train.py lines 92-102): reads the file in BUF_SIZE chunks,
feeding each to the incremental hash (whose state is the bytes accumulated
so far), and returns the hex digest of the accumulated stream. -/
def file_sha256 (fileBytes : List Nat) : String :=
  sha256hex ((chunksOf BUF_SIZE fileBytes).foldl (fun acc chunk => acc ++ chunk) [])

/-- The integrity manifest of train.py lines 178-183. -/
structure IntegrityManifest where
  data_path : String
  data_sha256 : String
  model_path : String
  model_sha256 : String
deriving DecidableEq

/-- The manifest construction of train.py lines 176-183: hash the dataset
file bytes and the model file bytes as read at that moment. -/
def integrityManifest (dataPath : String) (dataBytes : List Nat)
    (modelPath : String) (modelBytes : List Nat) : IntegrityManifest :=
  ⟨dataPath, file_sha256 dataBytes, modelPath, file_sha256 modelBytes⟩

/-- A lower-case hexadecimal digit. -/
def isLowerHexDigit (c : Char) : Bool :=
  (48 ≤ c.toNat && c.toNat ≤ 57) || (97 ≤ c.toNat && c.toNat ≤ 102)

/-- A small concrete dataset used to instantiate the theorems: one feature
column (not named sepal_length) and the target column. -/
def dEx : Dataset := ⟨[("petal_width", [1, 2, 3, 4]), ("target", [0, 0, 1, 1])]⟩

/-- A concrete external fairlearn surface returning empty tables. -/
def libEx : FairlearnLib :=
  ⟨fun _ _ _ => [], fun _ _ _ => [], fun _ _ _ => 0, fun _ _ _ => 0⟩

/-- A concrete predictor: the constant class 0. -/
def modelEx : PredictModel := fun rows => rows.map (fun _ => 0)

/-- The default report/artifact paths of parse_args with no audit selected. -/
def argsNone : Args :=
  ⟨false, false, false, "data/iris.parquet", "artifacts/model.pkl",
   "artifacts/fairlearn_report.json", "artifacts/giskard_report.json",
   "artifacts/credoai_report.json"⟩

/-- The default paths with only the fairlearn audit selected. -/
def argsFairlearn : Args :=
  ⟨true, false, false, "data/iris.parquet", "artifacts/model.pkl",
   "artifacts/fairlearn_report.json", "artifacts/giskard_report.json",
   "artifacts/credoai_report.json"⟩

/-- The default paths with only the giskard audit selected. -/
def argsGiskard : Args :=
  ⟨false, true, false, "data/iris.parquet", "artifacts/model.pkl",
   "artifacts/fairlearn_report.json", "artifacts/giskard_report.json",
   "artifacts/credoai_report.json"⟩

/-- A world with no files on disk and no libraries installed. -/
def worldEmpty : World :=
  ⟨fun _ => FileLoad.missing, fun _ => FileLoad.missing,
   false, false, false, "unknown", libEx, ScanOutcome.raises "boom"⟩

/-- A world where the dataset and model load but giskard is not installed. -/
def worldNoGiskard : World :=
  ⟨fun _ => FileLoad.loaded dEx, fun _ => FileLoad.loaded modelEx,
   true, false, true, "1.0.0", libEx, ScanOutcome.raises "boom"⟩

/-- The report run_fairlearn yields on the concrete inputs above. -/
def reportEx : FairnessReport := ⟨"sepal_length_high_vs_low", [], [], 0, 0⟩

theorem foldlDedup_head {α : Type} [DecidableEq α] (xs : List α) (acc : List α)
    (h : acc ≠ []) :
    (xs.foldl (fun acc x => if x ∈ acc then acc else acc ++ [x]) acc).head? = acc.head? := by
  induction xs generalizing acc with
  | nil => rfl
  | cons y ys ih =>
    simp only [List.foldl_cons]
    by_cases hy : y ∈ acc
    · rw [if_pos hy]; exact ih acc h
    · rw [if_neg hy]
      rw [ih (acc ++ [y]) (by simp)]
      cases acc with
      | nil => exact absurd rfl h
      | cons b bs => rfl

/-- pd.unique keeps the first element of a non-empty sequence first. -/
theorem pdUnique_head {α : Type} [DecidableEq α] (a : α) (xs : List α) :
    (pdUnique (a :: xs)).head? = some a := by
  unfold pdUnique
  simp only [List.foldl_cons, List.not_mem_nil, if_false, List.nil_append]
  exact foldlDedup_head xs [a] (by simp)

theorem foldlDedup_subset {α : Type} [DecidableEq α] (xs acc : List α)
    (h : ∀ x ∈ xs, x ∈ acc) :
    xs.foldl (fun acc x => if x ∈ acc then acc else acc ++ [x]) acc = acc := by
  induction xs with
  | nil => rfl
  | cons y ys ih =>
    simp only [List.foldl_cons, if_pos (h y (List.mem_cons_self y ys))]
    exact ih (fun x hx => h x (List.mem_cons_of_mem y hx))

/-- pd.unique of a constant non-empty sequence is the singleton. -/
theorem pdUnique_const {α : Type} [DecidableEq α] (g : α) (xs : List α)
    (h : ∀ x ∈ xs, x = g) :
    pdUnique (g :: xs) = [g] := by
  unfold pdUnique
  simp only [List.foldl_cons, List.not_mem_nil, if_false, List.nil_append]
  exact foldlDedup_subset xs [g] (fun x hx => by rw [h x hx]; exact List.mem_cons_self g [])

/-- Reassembling the chunks of a list gives the list back. -/
theorem flatten_chunksOf {α : Type} (n : Nat) (hn : n ≠ 0) (l : List α) :
    (chunksOf n l).flatten = l := by
  rw [chunksOf]
  split
  next h => simp [List.isEmpty_iff.mp h]
  next h =>
    simp only [List.flatten_cons]
    rw [flatten_chunksOf n hn (l.drop n), List.take_append_drop]
termination_by l.length
decreasing_by
  simp only [List.length_drop]
  cases l with
  | nil => simp_all
  | cons x xs =>
    simp only [List.length_cons]
    omega

theorem foldl_append_eq_flatten {α : Type} (ls : List (List α)) (acc : List α) :
    ls.foldl (fun a c => a ++ c) acc = acc ++ ls.flatten := by
  induction ls generalizing acc with
  | nil => simp
  | cons c cs ih => simp [ih, List.append_assoc]

/-- The chunked reading loop of file_sha256 is transparent: the digest is
the digest of the file's full byte content. -/
theorem file_sha256_eq (bytes : List Nat) : file_sha256 bytes = sha256hex bytes := by
  unfold file_sha256
  rw [foldl_append_eq_flatten, flatten_chunksOf BUF_SIZE (by decide) bytes,
    List.nil_append]

theorem length_beBytes (k : Nat) : ∀ n : Nat, (beBytes k n).length = k := by
  induction k with
  | zero => intro n; rfl
  | succ k ih => intro n; simp [beBytes, ih]

theorem length_sha256Bytes (bytes : List Nat) : (sha256Bytes bytes).length = 32 := by
  simp [sha256Bytes, List.length_append, length_beBytes]

theorem length_hexOfBytes (bs : List Nat) : (hexOfBytes bs).length = 2 * bs.length := by
  induction bs with
  | nil => rfl
  | cons b t ih =>
    simp only [hexOfBytes, List.map_cons, List.flatten_cons, List.length_append,
      List.length_cons] at ih ⊢
    simp [byteHex, ih]
    ring

theorem hexChar_lower : ∀ n, n < 16 → isLowerHexDigit (hexChar n) = true := by decide

theorem byteHex_lower (b : Nat) : (byteHex b).all isLowerHexDigit = true := by
  simp only [byteHex, List.all_cons, List.all_nil, Bool.and_true]
  rw [hexChar_lower _ (Nat.mod_lt _ (by norm_num)),
    hexChar_lower _ (Nat.mod_lt _ (by norm_num))]
  rfl

theorem hexOfBytes_lower (bs : List Nat) : (hexOfBytes bs).all isLowerHexDigit = true := by
  induction bs with
  | nil => rfl
  | cons b t ih =>
    simp only [hexOfBytes, List.map_cons, List.flatten_cons, List.all_append] at ih ⊢
    rw [byteHex_lower, ih]
    rfl

theorem fairlearnEvents_ok (w : World) (d : Dataset) (mdl : PredictModel)
    (rp : String) (l : List Event) (h : fairlearnEvents w d mdl rp = Except.ok l) :
    l = [Event.fileWrite rp, Event.stdout ("Fairlearn report written to " ++ rp)] := by
  unfold fairlearnEvents at h
  split at h
  · exact Except.noConfusion h
  · simp only [Except.ok.injEq] at h
    exact h.symm

theorem giskardEvents_ok (w : World) (d : Dataset) (rp : String) (l : List Event)
    (h : giskardEvents w d rp = Except.ok l) :
    l = [Event.fileWrite rp, Event.stdout ("Giskard report written to " ++ rp)] := by
  unfold giskardEvents at h
  split at h
  · exact Except.noConfusion h
  · simp only [Except.ok.injEq] at h
    exact h.symm

theorem credoEvents_ok (w : World) (d : Dataset) (rp : String) (l : List Event)
    (h : credoEvents w d rp = Except.ok l) :
    l = [Event.fileWrite rp, Event.stdout ("Credo AI metadata written to " ++ rp)] := by
  unfold credoEvents at h
  split at h
  · exact Except.noConfusion h
  · simp only [Except.ok.injEq] at h
    exact h.symm

/-- The event list of a completed audit branch holds no stderr writes and
no loads. -/
def branchShaped (l : List Event) : Prop :=
  l.countP isStderr = 0 ∧ l.countP isLoadData = 0 ∧ l.countP isLoadMod = 0

theorem branchShaped_nil : branchShaped [] := by
  refine ⟨rfl, rfl, rfl⟩

theorem branchShaped_writeStdout (rp m : String) :
    branchShaped [Event.fileWrite rp, Event.stdout m] := by
  refine ⟨?_, ?_, ?_⟩ <;> rfl

theorem branchShaped_step (cond : Bool) (step : Except String (List Event))
    (l : List Event)
    (hshape : ∀ l', step = Except.ok l' → branchShaped l')
    (h : (if cond then step else Except.ok []) = Except.ok l) :
    branchShaped l := by
  by_cases hc : cond
  · rw [if_pos hc] at h
    exact hshape l h
  · rw [if_neg hc] at h
    simp only [Except.ok.injEq] at h
    rw [← h]
    exact branchShaped_nil

/-- The trace-shape invariant of a finished main invocation: nothing written
to stderr, each load attempted at most once. -/
def mainShaped (r : List Event × Option String) : Prop :=
  r.1.countP isStderr = 0 ∧ r.1.countP isLoadData ≤ 1 ∧ r.1.countP isLoadMod ≤ 1

/-- Whatever happens, main's own event trace writes nothing to stderr and
attempts each load at most once. -/
theorem mainRun_counts (args : Args) (w : World) : mainShaped (mainRun args w) := by
  unfold mainRun
  split
  · exact ⟨rfl, by simp [List.countP_cons, isLoadData], by simp [List.countP_cons, isLoadMod]⟩
  · split
    · exact ⟨rfl, by simp [List.countP_cons, isLoadData], by simp [List.countP_cons, isLoadMod]⟩
    next df hld =>
      split
      · exact ⟨rfl, by simp [List.countP_cons, isLoadData, isLoadMod],
          by simp [List.countP_cons, isLoadData, isLoadMod]⟩
      next mdl hlm =>
        split
        next e he1 =>
          exact ⟨rfl, by simp [List.countP_cons, isLoadData, isLoadMod],
            by simp [List.countP_cons, isLoadData, isLoadMod]⟩
        next e1 he1 =>
          have hb1 : branchShaped e1 :=
            branchShaped_step _ _ _
              (fun l' hl' => fairlearnEvents_ok _ _ _ _ _ hl' ▸ branchShaped_writeStdout _ _) he1
          obtain ⟨hb1s, hb1d, hb1m⟩ := hb1
          split
          next e he2 =>
            refine ⟨?_, ?_, ?_⟩ <;>
              simp [List.countP_append, List.countP_cons, isStderr, isLoadData, isLoadMod,
                hb1s, hb1d, hb1m]
          next e2 he2 =>
            have hb2 : branchShaped e2 :=
              branchShaped_step _ _ _
                (fun l' hl' => giskardEvents_ok _ _ _ _ hl' ▸ branchShaped_writeStdout _ _) he2
            obtain ⟨hb2s, hb2d, hb2m⟩ := hb2
            split
            next e he3 =>
              refine ⟨?_, ?_, ?_⟩ <;>
                simp [List.countP_append, List.countP_cons, isStderr, isLoadData, isLoadMod,
                  hb1s, hb1d, hb1m, hb2s, hb2d, hb2m]
            next e3 he3 =>
              have hb3 : branchShaped e3 :=
                branchShaped_step _ _ _
                  (fun l' hl' => credoEvents_ok _ _ _ _ hl' ▸ branchShaped_writeStdout _ _) he3
              obtain ⟨hb3s, hb3d, hb3m⟩ := hb3
              refine ⟨?_, ?_, ?_⟩ <;>
                simp [List.countP_append, List.countP_cons, isStderr, isLoadData, isLoadMod,
                  hb1s, hb1d, hb1m, hb2s, hb2d, hb2m, hb3s, hb3d, hb3m]

/-- C2: for every dataset with at least one non-label column, the sensitive
grouping is derived from the first non-label column in declared order, and
each row is mapped to "high_<column>" exactly when its value strictly
exceeds the column's median and to "low_<column>" otherwise, so rows equal
to the median land in "low_<column>"; one group value per row, aligned to
row order. -/
theorem median_split_sensitive_attribute (d : Dataset) (c : String)
    (rest : List String) (hc : featureColNames d = c :: rest) :
    sensitiveOf d = deriveSensitive (getCol d c) c
    ∧ (sensitiveOf d).length = (getCol d c).length
    ∧ (∀ i : Nat, (sensitiveOf d)[i]? = ((getCol d c)[i]?).map
        (fun v => if median (getCol d c) < v then "high_" ++ c else "low_" ++ c))
    ∧ (∀ i : Nat, ∀ v : ℚ, (getCol d c)[i]? = some v → v ≤ median (getCol d c) →
        (sensitiveOf d)[i]? = some ("low_" ++ c)) := by
  have hs : sensitiveOf d = deriveSensitive (getCol d c) c := by
    unfold sensitiveOf
    rw [hc]
  refine ⟨hs, ?_, ?_, ?_⟩
  · rw [hs]
    unfold deriveSensitive
    rw [List.length_map]
  · intro i
    rw [hs]
    unfold deriveSensitive
    rw [List.getElem?_map]
  · intro i v hv hle
    rw [hs]
    unfold deriveSensitive
    rw [List.getElem?_map, hv, Option.map_some']
    rw [if_neg (not_lt.mpr hle)]

/-- C2 witness: the theorem applied to the concrete dataset dEx, whose first
non-label column is petal_width with values 1,2,3,4 (median 5/2). -/
theorem median_split_witness :
    sensitiveOf dEx = deriveSensitive (getCol dEx "petal_width") "petal_width"
    ∧ (sensitiveOf dEx).length = (getCol dEx "petal_width").length
    ∧ (∀ i : Nat, (sensitiveOf dEx)[i]? = ((getCol dEx "petal_width")[i]?).map
        (fun v => if median (getCol dEx "petal_width") < v then "high_" ++ "petal_width" else "low_" ++ "petal_width"))
    ∧ (∀ i : Nat, ∀ v : ℚ, (getCol dEx "petal_width")[i]? = some v → v ≤ median (getCol dEx "petal_width") →
        (sensitiveOf dEx)[i]? = some ("low_" ++ "petal_width")) :=
  median_split_sensitive_attribute dEx "petal_width" [] (by rfl)

/-- C3: for a non-empty true-label sequence, the positive class is the first
true-label value in row order, and each binarized sequence carries 1 at
position i exactly when the corresponding label equals that positive
label. -/
theorem first_label_binarization (a : ℚ) (rest yPred : List ℚ) :
    (pdUnique (a :: rest)).head? = some a
    ∧ binarizeStep (a :: rest) yPred =
        Except.ok (binarizeCode (a :: rest) a, binarizeCode yPred a)
    ∧ (∀ i : Nat, (binarizeCode (a :: rest) a)[i]? =
        ((a :: rest)[i]?).map (fun v => if v = a then 1 else 0))
    ∧ (∀ i : Nat, (binarizeCode yPred a)[i]? =
        (yPred[i]?).map (fun v => if v = a then 1 else 0))
    ∧ (∀ i : Nat, ∀ v : ℚ, (a :: rest)[i]? = some v →
        ((binarizeCode (a :: rest) a)[i]? = some 1 ↔ v = a))
    ∧ (∀ i : Nat, ∀ v : ℚ, yPred[i]? = some v →
        ((binarizeCode yPred a)[i]? = some 1 ↔ v = a)) := by
  have hhead := pdUnique_head a rest
  have hstep : binarizeStep (a :: rest) yPred =
      Except.ok (binarizeCode (a :: rest) a, binarizeCode yPred a) := by
    unfold binarizeStep
    rw [hhead]
  have hmap : ∀ (ys : List ℚ) (i : Nat), (binarizeCode ys a)[i]? =
      (ys[i]?).map (fun v => if v = a then 1 else 0) := by
    intro ys i
    unfold binarizeCode
    rw [List.getElem?_map]
  have hiff : ∀ (ys : List ℚ) (i : Nat) (v : ℚ), ys[i]? = some v →
      ((binarizeCode ys a)[i]? = some 1 ↔ v = a) := by
    intro ys i v hv
    rw [hmap ys i, hv, Option.map_some']
    by_cases hva : v = a
    · rw [if_pos hva]
      simp [hva]
    · rw [if_neg hva]
      simp [hva]
  exact ⟨hhead, hstep, hmap (a :: rest), hmap yPred,
    fun i v hv => hiff (a :: rest) i v hv, fun i v hv => hiff yPred i v hv⟩

/-- C5: when only one distinct sensitive-group value occurs across all rows,
the fairness metric computation fails with InsufficientGroupsError instead
of producing disparity statistics. -/
theorem single_group_insufficient (yTrue yPred : List Bool)
    (sensitive : List String) (g : String) (h1 : sensitive ≠ [])
    (h2 : ∀ x ∈ sensitive, x = g) :
    computeFairness yTrue yPred sensitive =
      Except.error AuditError.insufficientGroups := by
  have hu : pdUnique sensitive = [g] := by
    cases sensitive with
    | nil => exact absurd rfl h1
    | cons s ss =>
      have hs : s = g := h2 s (List.mem_cons_self s ss)
      subst hs
      exact pdUnique_const s ss (fun x hx => h2 x (List.mem_cons_of_mem s hx))
  unfold computeFairness
  rw [hu]
  rfl

/-- C5 witness: a two-row input whose sensitive attribute is constant. -/
theorem single_group_witness :
    computeFairness [true, false] [true, true]
        ["low_petal_width", "low_petal_width"] =
      Except.error AuditError.insufficientGroups :=
  single_group_insufficient [true, false] [true, true]
    ["low_petal_width", "low_petal_width"] "low_petal_width"
    (by simp) (by decide)

/-- C6 counterexample: a pair of sequences of unequal length (true labels
[0], predictions []) on which the code's binarization step succeeds rather
than failing, refuting the claim as stated. -/
theorem binarize_no_length_check_cex :
    (([(0 : ℚ)] : List ℚ).length ≠ ([] : List ℚ).length)
    ∧ binarizeStep [(0 : ℚ)] ([] : List ℚ) = Except.ok ([1], []) := by
  constructor
  · decide
  · rfl

/-- C6 as amended: the binarization step fails (the IndexError raised by
pd.unique(y_true)[0]) exactly when the true-label sequence is empty; for a
non-empty true-label sequence it succeeds with both series binarized
against the first true label, regardless of the predicted sequence's
length — the code performs no length check. -/
theorem binarize_empty_only_failure (yTrue yPred : List ℚ) :
    (binarizeStep yTrue yPred =
        Except.error "index 0 is out of bounds for axis 0 with size 0"
      ↔ yTrue = [])
    ∧ (yTrue ≠ [] → binarizeStep yTrue yPred =
        Except.ok (binarizeCode yTrue (yTrue.headD 0), binarizeCode yPred (yTrue.headD 0))) := by
  cases yTrue with
  | nil =>
    constructor
    · constructor
      · intro _
        rfl
      · intro _
        rfl
    · intro hne
      exact absurd rfl hne
  | cons a rest =>
    have hhead := pdUnique_head a rest
    constructor
    · constructor
      · intro hcontra
        rw [binarizeStep, hhead] at hcontra
        exact Except.noConfusion hcontra
      · intro hcontra
        exact List.noConfusion hcontra
    · intro _
      rw [binarizeStep, hhead]
      rfl

/-- C7 counterexample: on the concrete dataset dEx the presence-check
report's keys are credoai_version, rows, features — not tool_version, rows,
features as claimed. -/
theorem credo_key_name_cex :
    (run_credo true "1.0.0" dEx).map jsonKeys =
      Except.ok ["credoai_version", "rows", "features"]
    ∧ (run_credo true "1.0.0" dEx).map jsonKeys ≠
      Except.ok ["tool_version", "rows", "features"] := by
  constructor
  · rfl
  · intro hcontra
    rw [show (run_credo true "1.0.0" dEx).map jsonKeys =
        Except.ok ["credoai_version", "rows", "features"] from rfl] at hcontra
    simp only [Except.ok.injEq] at hcontra
    exact absurd hcontra (by decide)

/-- C7 as amended: for every dataset and available presence-check library,
the report is a JSON object whose keys are exactly credoai_version (the
library version string), rows (the dataset's row count) and features (the
non-label column names); with the library unavailable the audit fails. -/
theorem credo_report_shape (v : String) (d : Dataset) :
    run_credo true v d = Except.ok (JsonVal.jobj
      [("credoai_version", JsonVal.jstr v),
       ("rows", JsonVal.jnum (nrows d : ℚ)),
       ("features", JsonVal.jarr ((featureColNames d).map JsonVal.jstr))])
    ∧ (run_credo true v d).map jsonKeys =
        Except.ok ["credoai_version", "rows", "features"]
    ∧ run_credo false v d = Except.error "credoai is not installed" := by
  refine ⟨rfl, rfl, rfl⟩

/-- C1: when the scan engine raises internally, run_giskard writes the
degraded payload, whose keys are warning and error, to the target report
path and returns normally; when instead the scan library cannot be
imported, run_giskard raises, and that error propagates through the
orchestrator as a fatal failure (non-zero exit). -/
theorem scan_fault_isolation (d : Dataset) (msg out : String)
    (oc : ScanOutcome) (args : Args) (w : World) (mdl : PredictModel)
    (hf : featureColNames d ≠ [])
    (hga : w.giskardAvailable = false)
    (hsg : args.runGiskard = true)
    (hsf : args.runFairlearn = false)
    (hld : load_dataset w args.datasetPath = Except.ok d)
    (hlm : load_model w args.modelPath = Except.ok mdl) :
    run_giskard true d (ScanOutcome.raises msg) out =
        Except.ok (out, WrittenScan.degraded (degradedPayload msg))
    ∧ jsonKeys (degradedPayload msg) = ["warning", "error"]
    ∧ run_giskard false d oc out = Except.error "giskard is not installed"
    ∧ (topLevel args w).2 = 1 := by
  have hfe : (featureColNames d).isEmpty = false := List.isEmpty_eq_false.mpr hf
  refine ⟨?_, rfl, rfl, ?_⟩
  · unfold run_giskard
    rw [if_neg (by simp), if_neg (by simp [hfe])]
  · have hmain : mainRun args w =
        ([Event.loadData args.datasetPath, Event.loadMod args.modelPath],
         some "giskard is not installed") := by
      unfold mainRun
      rw [hsg, hsf, hld, hlm]
      rw [if_neg (by simp)]
      have hgisk : giskardEvents w d args.giskardReport =
          Except.error "giskard is not installed" := by
        unfold giskardEvents run_giskard
        rw [hga]
        rfl
      simp [hgisk]
    unfold topLevel
    rw [hmain]

/-- C1 witness: the concrete dataset dEx in a world where giskard is not
installed, with the giskard audit selected. -/
theorem scan_fault_isolation_witness :
    run_giskard true dEx (ScanOutcome.raises "boom") "artifacts/giskard_report.json" =
        Except.ok ("artifacts/giskard_report.json", WrittenScan.degraded (degradedPayload "boom"))
    ∧ jsonKeys (degradedPayload "boom") = ["warning", "error"]
    ∧ run_giskard false dEx (ScanOutcome.succeeds "ok") "artifacts/giskard_report.json" =
        Except.error "giskard is not installed"
    ∧ (topLevel argsGiskard worldNoGiskard).2 = 1 :=
  scan_fault_isolation dEx "boom" "artifacts/giskard_report.json"
    (ScanOutcome.succeeds "ok") argsGiskard worldNoGiskard modelEx
    (by decide) rfl rfl rfl rfl rfl

/-- C4: the content hash is a pure function of the byte content (the
chunked reading loop is transparent), so identical bytes always yield the
identical digest string, which is 64 lower-case hexadecimal characters
(a 256-bit digest); consequently building the integrity manifest twice
over unmodified dataset and model bytes yields identical manifests. -/
theorem hash_deterministic_manifest_stable (d1 d2 m1 m2 : List Nat)
    (dp mp : String) (hd : d1 = d2) (hm : m1 = m2) :
    file_sha256 d1 = file_sha256 d2
    ∧ file_sha256 d1 = sha256hex d1
    ∧ (file_sha256 d1).length = 64
    ∧ (file_sha256 d1).data.all isLowerHexDigit = true
    ∧ integrityManifest dp d1 mp m1 = integrityManifest dp d2 mp m2 := by
  subst hd
  subst hm
  refine ⟨rfl, file_sha256_eq d1, ?_, ?_, rfl⟩
  · rw [file_sha256_eq]
    show (hexOfBytes (sha256Bytes d1)).length = 64
    rw [length_hexOfBytes, length_sha256Bytes]
  · rw [file_sha256_eq]
    exact hexOfBytes_lower (sha256Bytes d1)

/-- C4 witness: the theorem applied to concrete byte contents. -/
theorem hash_deterministic_witness :
    file_sha256 [] = file_sha256 []
    ∧ file_sha256 [] = sha256hex []
    ∧ (file_sha256 []).length = 64
    ∧ (file_sha256 []).data.all isLowerHexDigit = true
    ∧ integrityManifest "data/iris.parquet" [] "artifacts/model.pkl" [104, 105] =
        integrityManifest "data/iris.parquet" [] "artifacts/model.pkl" [104, 105] :=
  hash_deterministic_manifest_stable [] [] [104, 105] [104, 105]
    "data/iris.parquet" "artifacts/model.pkl" rfl rfl

/-- C8: invoked with no audit kinds selected, the orchestrator performs no
dataset or model loading, writes no files, prints only the informational
message and exits 0. -/
theorem noop_invocation (args : Args) (w : World)
    (h1 : args.runFairlearn = false) (h2 : args.runGiskard = false)
    (h3 : args.runCredo = false) :
    topLevel args w = ([Event.stdout "No audits selected; exiting cleanly."], 0)
    ∧ (topLevel args w).1.countP isLoadData = 0
    ∧ (topLevel args w).1.countP isLoadMod = 0
    ∧ (topLevel args w).1.countP isFileWrite = 0
    ∧ (topLevel args w).1.countP isStderr = 0
    ∧ (topLevel args w).2 = 0 := by
  have hmain : mainRun args w =
      ([Event.stdout "No audits selected; exiting cleanly."], none) := by
    unfold mainRun
    rw [h1, h2, h3]
    rfl
  have ht : topLevel args w = ([Event.stdout "No audits selected; exiting cleanly."], 0) := by
    unfold topLevel
    rw [hmain]
  refine ⟨ht, ?_, ?_, ?_, ?_, ?_⟩ <;> rw [ht] <;> rfl

/-- C8 witness: the default arguments with all three audit flags unset. -/
theorem noop_invocation_witness :
    topLevel argsNone worldEmpty = ([Event.stdout "No audits selected; exiting cleanly."], 0)
    ∧ (topLevel argsNone worldEmpty).1.countP isLoadData = 0
    ∧ (topLevel argsNone worldEmpty).1.countP isLoadMod = 0
    ∧ (topLevel argsNone worldEmpty).1.countP isFileWrite = 0
    ∧ (topLevel argsNone worldEmpty).1.countP isStderr = 0
    ∧ (topLevel argsNone worldEmpty).2 = 0 :=
  noop_invocation argsNone worldEmpty rfl rfl rfl

/-- C9: every fatal error raised inside main propagates to the top-level
guard, is captured exactly once as a single diagnostic line on the error
stream, and the process exits non-zero; no retries occur (each load is
attempted at most once). -/
theorem fatal_single_diagnostic (args : Args) (w : World) (evs : List Event)
    (e : String) (h : mainRun args w = (evs, some e)) :
    topLevel args w = (evs ++ [Event.stderr ("[audit_tools] Failed: " ++ e ++ "\n")], 1)
    ∧ (topLevel args w).1.countP isStderr = 1
    ∧ (topLevel args w).1.countP isLoadData ≤ 1
    ∧ (topLevel args w).1.countP isLoadMod ≤ 1
    ∧ (topLevel args w).2 = 1 := by
  have hc := mainRun_counts args w
  rw [h] at hc
  obtain ⟨hs, hdd, hmm⟩ := hc
  have ht : topLevel args w =
      (evs ++ [Event.stderr ("[audit_tools] Failed: " ++ e ++ "\n")], 1) := by
    unfold topLevel
    rw [h]
  refine ⟨ht, ?_, ?_, ?_, by rw [ht]⟩
  · rw [ht]
    simp only [List.countP_append, List.countP_cons, List.countP_nil]
    simp only at hs
    simp [isStderr, hs]
  · rw [ht]
    simp only [List.countP_append, List.countP_cons, List.countP_nil]
    simp only at hdd
    simp only [isStderr, isLoadData]
    simp
    omega
  · rw [ht]
    simp only [List.countP_append, List.countP_cons, List.countP_nil]
    simp only at hmm
    simp only [isStderr, isLoadMod]
    simp
    omega

/-- C9 witness: the fairlearn audit selected in a world with no dataset
file at the default path. -/
theorem fatal_single_diagnostic_witness :
    topLevel argsFairlearn worldEmpty =
      ([Event.loadData "data/iris.parquet"] ++
        [Event.stderr ("[audit_tools] Failed: " ++ "Dataset not found at data/iris.parquet" ++ "\n")], 1)
    ∧ (topLevel argsFairlearn worldEmpty).1.countP isStderr = 1
    ∧ (topLevel argsFairlearn worldEmpty).1.countP isLoadData ≤ 1
    ∧ (topLevel argsFairlearn worldEmpty).1.countP isLoadMod ≤ 1
    ∧ (topLevel argsFairlearn worldEmpty).2 = 1 :=
  fatal_single_diagnostic argsFairlearn worldEmpty
    [Event.loadData "data/iris.parquet"] "Dataset not found at data/iris.parquet" rfl

/-- C10: every fairness report run_fairlearn produces carries the fixed
literal "sepal_length_high_vs_low" in its sensitive_feature field,
whatever dataset, model and metric backend produced it — in particular the
field does not reflect the actual grouping column's name. -/
theorem sensitive_feature_hardcoded (lib : FairlearnLib) (d : Dataset)
    (mdl : PredictModel) (r : FairnessReport)
    (h : run_fairlearn true lib d mdl = Except.ok r) :
    r.sensitive_feature = "sepal_length_high_vs_low" := by
  unfold run_fairlearn at h
  rw [if_neg (by simp)] at h
  split at h
  · exact Except.noConfusion h
  · split at h
    · exact Except.noConfusion h
    · simp only [Except.ok.injEq] at h
      rw [← h]

/-- C10 witness: the concrete dataset dEx, whose grouping column is
petal_width, still reports sensitive_feature "sepal_length_high_vs_low". -/
theorem sensitive_feature_hardcoded_witness :
    reportEx.sensitive_feature = "sepal_length_high_vs_low" :=
  sensitive_feature_hardcoded libEx dEx modelEx reportEx (by rfl)
